import Mathlib

/-!
Verification development for a STOMP 1.2 client library (`stomping`).

The embedding models the repository's source:
  * `src/protocol.rs` — frames, commands, headers (byte-keyed map);
  * `src/lib.rs` — the synchronous client: `PaceMaker`, `decode_header`,
    `parse_keepalive`, the blank-line-skipping read loop;
  * `src/connection.rs` — the asynchronous multiplexer: `connect`'s
    handshake judgement and heart-beat negotiation, the writer (`run_c2s`)
    and reader (`run_s2c`) flows;
  * `src/parser.rs` — the incremental (nom-based) frame decoder.

Machine integers: Rust `u64`/`usize`/`Duration` are modelled as `Nat`
(durations and `SystemTime` instants in nanoseconds).  Fallible Rust code
returning `Result` is modelled with `Except`.
-/

namespace Stomping

/-- ASCII bytes of a Rust string literal (all header names used on the wire
are ASCII, so a per-char cast is exact). -/
def strBytes (s : String) : List UInt8 :=
  s.data.map (fun c => UInt8.ofNat c.toNat)

deriving instance DecidableEq for Except

/-- `src/protocol.rs` `Command` (identical to the enum in `src/lib.rs`). -/
inductive Command where
  | Connect | Send | Subscribe | Unsubscribe | Disconnect | Ack
  | Connected | Message | Receipt | Error
deriving DecidableEq, Repr

/-- `src/protocol.rs` `AckMode`. -/
inductive AckMode where
  | Auto
  | ClientIndividual
deriving DecidableEq, Repr

/-- `AckMode::as_str` from `src/protocol.rs`. -/
def AckMode.as_str : AckMode → String
  | .Auto => "auto"
  | .ClientIndividual => "client-individual"

/-- `src/protocol.rs` `Headers = BTreeMap<Vec<u8>, Vec<u8>>`, modelled as an
association list looked up on the first matching key; `mapInsert` replaces
any previous binding, matching `BTreeMap::insert`. -/
def Headers : Type := List (List UInt8 × List UInt8)

/-- First-match lookup, the observable behaviour of `BTreeMap::get`. -/
def mapLookup {β : Type} (k : List UInt8) : List (List UInt8 × β) → Option β
  | [] => none
  | (k', v) :: rest => if k' = k then some v else mapLookup k rest

/-- `BTreeMap::insert`: any previous binding for the key is replaced. -/
def mapInsert {β : Type} (k : List UInt8) (v : β) (m : List (List UInt8 × β)) :
    List (List UInt8 × β) :=
  (k, v) :: m.filter (fun kv => !decide (kv.1 = k))

/-- `BTreeMap::remove`: drop the binding for the key (if any). -/
def mapRemove {β : Type} (k : List UInt8) (m : List (List UInt8 × β)) :
    List (List UInt8 × β) :=
  m.filter (fun kv => !decide (kv.1 = k))

/-- `src/protocol.rs` `Frame`. -/
structure Frame where
  command : Command
  headers : List (List UInt8 × List UInt8)
  body : List UInt8
deriving DecidableEq, Repr

/-- `src/protocol.rs` `FrameOrKeepAlive`. -/
inductive FrameOrKeepAlive where
  | Frame (f : Frame)
  | KeepAlive
deriving DecidableEq, Repr

/-- Modelled from the spec: the error taxonomy of §7 (the file `errors.rs`
naming `StompError` is not under `src/`; only its users are).  The variants
follow the spec's table, plus `SystemTimeError` for the `?` on
`SystemTime::duration_since` in `PaceMaker::handle_read_timeout` and
`ChannelSendError` for a failed subscription-channel send in `run_s2c`. -/
inductive StompError where
  | ProtocolError
  | StompError (f : Frame)
  | PeerFailed
  | NoAckHeader
  | Io
  | Utf8
  | ParseInt
  | ConnectionClosed
  | SystemTimeError
  | ChannelSendError
deriving DecidableEq, Repr

/-! ## Pacemaker (`src/lib.rs`)

`SystemTime` instants and `Duration`s are `Nat` nanoseconds.
`SystemTime::duration_since(earlier)` returns `Err` when `self` is earlier
than the argument; modelled by `durationSince` returning `Option`. -/

/-- `SystemTime::duration_since`: `some (t - earlier)` when `earlier ≤ t`,
otherwise a `SystemTimeError` (here `none`). -/
def durationSince (t earlier : Nat) : Option Nat :=
  if earlier ≤ t then some (t - earlier) else none

/-- `const EPSILON: Duration = Duration::from_micros(1)` (in ns). -/
def EPSILON : Nat := 1000

/-- `Duration::from_millis` (in ns). -/
def fromMillis (ms : Nat) : Nat := ms * 1000000

/-- `src/lib.rs` `PaceMaker`. -/
structure PaceMaker where
  client_to_server : Option Nat
  server_to_client : Option Nat
  last_observed_read : Nat
  last_observed_write : Nat
deriving DecidableEq, Repr

/-- `src/lib.rs` `BeatAction`. -/
inductive BeatAction where
  | Retry
  | PeerFailed
  | SendClientHeart
deriving DecidableEq, Repr

/-- `PaceMaker::new` (`src/lib.rs` lines 450–469): each direction requires
both the client proposal and the (already zero-filtered) server value, and
takes the max of the two. -/
def PaceMaker.new (keepalive sx sy : Option Nat) (now : Nat) : PaceMaker :=
  { client_to_server := sy.bind (fun sy => keepalive.map (fun cx => max cx sy))
    server_to_client := sx.bind (fun sx => keepalive.map (fun cy => max cy sx))
    last_observed_read := now
    last_observed_write := now }

/-- Model of `Iterator::min` over the chained `Option` iterators in
`PaceMaker::read_timeout`. -/
def listMin : List Nat → Option Nat
  | [] => none
  | x :: xs =>
    match listMin xs with
    | none => some x
    | some m => some (min x m)

/-- `PaceMaker::read_timeout` (`src/lib.rs` lines 471–491).  Each present
direction contributes `deadline.duration_since(now)` mapped (×2 for the
inbound direction, ÷2 for the outbound one) with `unwrap_or(ZERO)`; the
overall minimum is clamped below by `EPSILON`. -/
def PaceMaker.read_timeout (pm : PaceMaker) (now : Nat) : Option Nat :=
  let until_read := pm.server_to_client.map (fun s2c =>
    ((durationSince (pm.last_observed_read + s2c) now).map (fun d => d * 2)).getD 0)
  let until_write := pm.client_to_server.map (fun c2s =>
    ((durationSince (pm.last_observed_write + c2s) now).map (fun d => d / 2)).getD 0)
  let timeout := listMin (until_read.toList ++ until_write.toList)
  timeout.map (fun t => max t EPSILON)

/-- `PaceMaker::handle_read_timeout` (`src/lib.rs` lines 502–534).  The
outbound (write) check runs first; each check propagates the
`SystemTimeError` of `duration_since` via `?`. -/
def PaceMaker.handle_read_timeout (pm : PaceMaker) (t : Nat) :
    Except StompError BeatAction :=
  let step2 : Except StompError BeatAction :=
    match pm.server_to_client with
    | some interval =>
      match durationSince t pm.last_observed_read with
      | some duration =>
        if duration < interval * 2 then .ok .Retry else .ok .PeerFailed
      | none => .error .SystemTimeError
    | none => .ok .Retry
  match pm.client_to_server with
  | some interval =>
    match durationSince t pm.last_observed_write with
    | some duration =>
      if interval ≤ duration then .ok .SendClientHeart else step2
    | none => .error .SystemTimeError
  | none => step2

/-- Modelled from the spec (§4.2 "Action on timeout"): the outbound
condition — time since last write at least `c2s` — stated from the spec's
words, for comparison with `PaceMaker.handle_read_timeout`. -/
def heart_due (pm : PaceMaker) (t : Nat) : Bool :=
  match pm.client_to_server with
  | some c2s => decide (c2s ≤ t - pm.last_observed_write)
  | none => false

/-- Modelled from the spec (§4.2 "Action on timeout"): the inbound failure
condition — time since last read at least `2 × s2c` — stated from the
spec's words, for comparison with `PaceMaker.handle_read_timeout`. -/
def peer_dead (pm : PaceMaker) (t : Nat) : Bool :=
  match pm.server_to_client with
  | some s2c => decide (2 * s2c ≤ t - pm.last_observed_read)
  | none => false

/-- `PaceMaker::read_observed`. -/
def PaceMaker.read_observed (pm : PaceMaker) (at_ : Nat) : PaceMaker :=
  { pm with last_observed_read := at_ }

/-- `PaceMaker::write_observed`. -/
def PaceMaker.write_observed (pm : PaceMaker) (at_ : Nat) : PaceMaker :=
  { pm with last_observed_write := at_ }

/-! ## Heart-beat header parsing and negotiation -/

/-- Rust `char::is_whitespace`, restricted to the ASCII range that can occur
in the protocol's numeric and command fields. -/
def isWs (c : Char) : Bool :=
  c = ' ' || c = '\t' || c = '\n' || c = '\r'

/-- Rust `str::trim`. -/
def trimWs (l : List Char) : List Char :=
  ((l.dropWhile isWs).reverse.dropWhile isWs).reverse

/-- Rust `str::splitn(2, ',')`: everything before the first comma, and
(if a comma exists) everything after it. -/
def splitn2Comma (l : List Char) : List (List Char) :=
  match l with
  | [] => [[]]
  | ',' :: rest => [[], rest]
  | c :: rest =>
    match splitn2Comma rest with
    | [a] => [c :: a]
    | a :: bs => (c :: a) :: bs
    | [] => [[c]]

/-- `str::parse::<u64>`: optional leading `+`, then one or more ASCII
digits, value bounded by `u64::MAX`; anything else is a `ParseIntError`
(surfaced as `StompError::ParseInt`). -/
def parseDigits : List Char → Option Nat → Option Nat
  | [], acc => acc
  | c :: rest, acc =>
    if c.isDigit then
      parseDigits rest (some ((acc.getD 0) * 10 + (c.toNat - 48)))
    else
      none

/-- `str::parse::<u64>` including the `+` sign and overflow rules. -/
def parseU64 (l : List Char) : Except StompError Nat :=
  let digits := match l with
    | '+' :: rest => rest
    | l => l
  match parseDigits digits none with
  | some v => if v < 2 ^ 64 then .ok v else .error .ParseInt
  | none => .error .ParseInt

/-- `some_non_zero` (`src/lib.rs` lines 99–105 and `src/connection.rs`
lines 338–344). -/
def some_non_zero (dur : Nat) : Option Nat :=
  if dur = 0 then none else some dur

/-- `parse_keepalive` (`src/lib.rs` lines 85–97; the `src/connection.rs`
version at lines 323–336 differs only by a UTF-8 decode of the header
bytes, elided here by taking the header as text).  A missing header yields
`Ok((None, None))`; otherwise the value is trimmed, split at the first
comma, and both pieces are parsed as `u64` milliseconds, with zero mapped
to `None` by `some_non_zero`. -/
def parse_keepalive (headervalue : Option (List Char)) :
    Except StompError (Option Nat × Option Nat) :=
  match headervalue with
  | some sxsy =>
    match splitn2Comma (trimWs sxsy) with
    | sxs :: rest =>
      match parseU64 sxs with
      | .ok sxms =>
        match rest with
        | sys :: _ =>
          match parseU64 sys with
          | .ok syms =>
            .ok (some_non_zero (fromMillis sxms), some_non_zero (fromMillis syms))
          | .error e => .error e
        | [] => .error .ProtocolError
      | .error e => .error e
    | [] => .error .ProtocolError
  | none => .ok (none, none)

/-- Rust `cmp::max` at type `Option<Duration>` (derived `Ord` on `Option`:
`None` is less than any `Some`, and `Some`s compare by value). -/
def optionMax (a b : Option Nat) : Option Nat :=
  match a, b with
  | none, b => b
  | a, none => a
  | some x, some y => some (max x y)

/-- The heart-beat negotiation done by `connect` in `src/connection.rs`
(lines 315–316): `c2s_ka = cmp::max(connect.keepalive, sy)` and
`s2c_ka = cmp::max(connect.keepalive, sx)`, at `Option` type.  Returns
`(c2s_ka, s2c_ka)`. -/
def connect_negotiate (keepalive sx sy : Option Nat) : Option Nat × Option Nat :=
  (optionMax keepalive sy, optionMax keepalive sx)

/-! ## Header escape decoding in the synchronous client (`src/lib.rs`) -/

/-- `decode_header` (`src/lib.rs` lines 65–81).  The four STOMP escapes
decode; any other `\X` (or a trailing lone `\`) is logged with `warn!` and
produces no output character — both bytes are consumed. -/
def decode_header : List Char → List Char
  | [] => []
  | c :: rest =>
    if c = '\\' then
      match rest with
      | [] => []
      | e :: rest' =>
        if e = 'r' then '\r' :: decode_header rest'
        else if e = 'n' then '\n' :: decode_header rest'
        else if e = 'c' then ':' :: decode_header rest'
        else if e = '\\' then '\\' :: decode_header rest'
        else decode_header rest'
    else c :: decode_header rest

/-! ## Handshake models

The asynchronous `connect` (`src/connection.rs` lines 280–307) judges the
first decoded item of the server stream; the synchronous client's
`read_frame` (`src/lib.rs` lines 341–351) instead loops while the line it
read trims to the empty string. -/

/-- The judgement `connect` applies to the first item decoded from the
server stream (`src/connection.rs` lines 281–307): a closed stream or a
keep-alive is a `ProtocolError`; an `ERROR` frame becomes
`StompError(frame)`; any other non-`CONNECTED` command is a
`ProtocolError`; a `CONNECTED` frame is returned for negotiation. -/
def connect_judge (item : Option FrameOrKeepAlive) : Except StompError Frame :=
  match item with
  | none => .error .ProtocolError
  | some .KeepAlive => .error .ProtocolError
  | some (.Frame f) =>
    if f.command = .Error then .error (.StompError f)
    else if f.command ≠ .Connected then .error .ProtocolError
    else .ok f

/-- `Command::from_str` (`src/protocol.rs` lines 75–92, identical in
`src/lib.rs`), over the trimmed command line. -/
def command_from_str (s : List Char) : Except StompError Command :=
  if s = "CONNECT".data then .ok .Connect
  else if s = "SEND".data then .ok .Send
  else if s = "SUBSCRIBE".data then .ok .Subscribe
  else if s = "UNSUBSCRIBE".data then .ok .Unsubscribe
  else if s = "DISCONNECT".data then .ok .Disconnect
  else if s = "ACK".data then .ok .Ack
  else if s = "CONNECTED".data then .ok .Connected
  else if s = "MESSAGE".data then .ok .Message
  else if s = "RECEIPT".data then .ok .Receipt
  else if s = "ERROR".data then .ok .Error
  else .error .ProtocolError

/-- The command-line loop of the synchronous `read_frame` (`src/lib.rs`
lines 341–351): lines (as delivered by `BufRead::read_line`, trailing LF
included) are read and discarded while they trim to the empty string — a
keep-alive LF is thereby skipped — and the first non-blank line is the
command line.  `none` models running out of input. -/
def read_command_line : List (List Char) → Option (List Char)
  | [] => none
  | l :: rest => if trimWs l = [] then read_command_line rest else some (trimWs l)

/-! ## The incremental frame decoder (`src/parser.rs`)

The nom streaming parsers are embedded as functions from the remaining
input to `PResult`: `ok remainder value` mirrors `Ok((rest, value))`,
`err` mirrors `Err::Error`/`Err::Failure` and `incomplete` mirrors
`Err::Incomplete`.  `alt` tries its next branch only on `err` and
propagates `incomplete` at once, as nom's does. -/

/-- Result of a streaming nom parser. -/
inductive PResult (α : Type) where
  | ok (rem : List UInt8) (val : α)
  | err
  | incomplete
deriving DecidableEq, Repr

/-- Sequencing of nom parsers (the `?` between combinator calls): `err`
and `incomplete` propagate, a success feeds the remainder and value on. -/
def pbind {α β : Type} (r : PResult α) (f : List UInt8 → α → PResult β) :
    PResult β :=
  match r with
  | .ok rem v => f rem v
  | .err => .err
  | .incomplete => .incomplete

/-- nom's `alt` between two branches: the second branch is tried only on a
(recoverable) `err`; `incomplete` propagates at once. -/
def palt {α : Type} (r : PResult α) (g : Unit → PResult α) : PResult α :=
  match r with
  | .ok rem v => .ok rem v
  | .incomplete => .incomplete
  | .err => g ()

/-- Byte-list prefix test (the comparison inside nom's `tag`). -/
def bytesHeadMatch : List UInt8 → List UInt8 → Bool
  | [], _ => true
  | _ :: _, [] => false
  | a :: as, b :: bs => a = b && bytesHeadMatch as bs

/-- nom `bytes::streaming::tag`: full match consumes the tag; an input that
is a proper head of the tag is `incomplete`; any mismatch is `err`. -/
def tagP (t : List UInt8) (input : List UInt8) : PResult Unit :=
  if bytesHeadMatch t input then .ok (input.drop t.length) ()
  else if bytesHeadMatch input t then .incomplete
  else .err

/-- nom `character::streaming::char` (result discarded by all callers). -/
def charP (c : UInt8) (input : List UInt8) : PResult Unit :=
  match input with
  | [] => .incomplete
  | b :: rest => if b = c then .ok rest () else .err

/-- `parse_header_char` (`src/parser.rs` lines 130–151): `\n` and `:` end a
name/value, the four escapes `\c \\ \r \n` decode to `: \ CR LF`, any other
byte after a backslash is an error, a bare backslash at end of input needs
more bytes, and every other byte stands for itself. -/
def parse_header_char (input : List UInt8) : PResult UInt8 :=
  match input with
  | [] => .incomplete
  | b :: rest =>
    if b = 10 then .err
    else if b = 58 then .err
    else if b = 92 then
      match rest with
      | [] => .incomplete
      | e :: rest' =>
        if e = 99 then .ok rest' 58
        else if e = 92 then .ok rest' 92
        else if e = 114 then .ok rest' 13
        else if e = 110 then .ok rest' 10
        else .err
    else .ok rest b

/-- One branch of the `alt` in `parse_command`: try `tag s`, on success
yield the command, on `err` fall through to the next branch. -/
def altTagCmd (s : String) (c : Command) (next : List UInt8 → PResult Command)
    (input : List UInt8) : PResult Command :=
  palt (pbind (tagP (strBytes s) input) (fun rem _ => .ok rem c))
    (fun _ => next input)

/-- `parse_command` (`src/parser.rs` lines 82–96): `alt` over the ten
LF-terminated command tags, in source order. -/
def parse_command : List UInt8 → PResult Command :=
  altTagCmd "CONNECT\n" .Connect <|
  altTagCmd "SEND\n" .Send <|
  altTagCmd "SUBSCRIBE\n" .Subscribe <|
  altTagCmd "UNSUBSCRIBE\n" .Unsubscribe <|
  altTagCmd "DISCONNECT\n" .Disconnect <|
  altTagCmd "ACK\n" .Ack <|
  altTagCmd "CONNECTED\n" .Connected <|
  altTagCmd "MESSAGE\n" .Message <|
  altTagCmd "RECEIPT\n" .Receipt <|
  altTagCmd "ERROR\n" .Error <|
  fun _ => .err

/-- The element parser for a header value:
`alt((parse_header_char, map(tag(b":"), |_| b':')))` — a literal colon is
accepted inside the value (`src/parser.rs` line 113). -/
def headerValueChar (input : List UInt8) : PResult UInt8 :=
  palt (parse_header_char input)
    (fun _ => pbind (tagP (strBytes ":") input) (fun rem _ => .ok rem 58))

/-- nom `multi::many0`, with explicit fuel (each of the element parsers
used here consumes at least one byte on success, so fuel `input.length + 1`
makes nom's zero-consumption loop guard unreachable). `err` of the element
parser ends the repetition; `incomplete` propagates. -/
def many0F {α : Type} (p : List UInt8 → PResult α) :
    Nat → List UInt8 → PResult (List α)
  | 0, _ => .err
  | fuel + 1, input =>
    match p input with
    | .err => .ok input []
    | .incomplete => .incomplete
    | .ok rem v =>
      pbind (many0F p fuel rem) (fun rem' vs => .ok rem' (v :: vs))

/-- nom `multi::many1 p` = one `p` then `many0 p`; a failing first element
is an error. -/
def many1F {α : Type} (p : List UInt8 → PResult α) (fuel : Nat)
    (input : List UInt8) : PResult (List α) :=
  pbind (p input) (fun rem v =>
    pbind (many0F p fuel rem) (fun rem' vs => .ok rem' (v :: vs)))

/-- `parse_header` (`src/parser.rs` lines 107–118): a non-empty escaped
name, a colon, a value of escaped chars or literal colons, and the LF. -/
def parse_header (input : List UInt8) : PResult (List UInt8 × List UInt8) :=
  pbind (many1F parse_header_char input.length input) (fun rem name =>
    pbind (charP 58 rem) (fun rem _ =>
      pbind (many0F headerValueChar (rem.length + 1) rem) (fun rem value =>
        pbind (charP 10 rem) (fun rem _ => .ok rem (name, value)))))

/-- `parse_headers` (`src/parser.rs` lines 98–105):
`fold_many0(parse_header, Headers::new(), insert)`. -/
def parse_headers (input : List UInt8) :
    PResult (List (List UInt8 × List UInt8)) :=
  pbind (many0F parse_header (input.length + 1) input) (fun rem kvs =>
    .ok rem (kvs.foldl (fun m kv => mapInsert kv.1 kv.2 m) []))

/-- nom `bytes::streaming::take(len)`. -/
def takeP (len : Nat) (input : List UInt8) : PResult (List UInt8) :=
  if len ≤ input.length then .ok (input.drop len) (input.take len)
  else .incomplete

/-- nom `bytes::streaming::take_till(|b| b == b'\0')`: everything before
the first NUL; reaching the end of input without a NUL needs more bytes. -/
def takeTillNul : List UInt8 → PResult (List UInt8)
  | [] => .incomplete
  | b :: rest =>
    if b = 0 then .ok (b :: rest) []
    else pbind (takeTillNul rest) (fun rem acc => .ok rem (b :: acc))

/-- `parse_body` (`src/parser.rs` lines 120–128): a `content-length` bounds
the body exactly, otherwise the body runs to the first NUL; either way the
terminating NUL is consumed by `tag(b"\0")`. -/
def parse_body (content_length : Option Nat) (input : List UInt8) :
    PResult (List UInt8) :=
  pbind (match content_length with
         | some len => takeP len input
         | none => takeTillNul input)
    (fun rem body => pbind (tagP [0] rem) (fun rem _ => .ok rem body))

/-- The `content-length` extraction in `parse_inner` (`src/parser.rs`
lines 66–69): `get`, then `from_utf8().ok()`, then `parse::<usize>().ok()`
— every failure collapses to `None`.  All-digit bytes are valid UTF-8, so
the UTF-8 step only filters what the digit test already rejects. -/
def contentLengthOf (headers : List (List UInt8 × List UInt8)) : Option Nat :=
  match mapLookup (strBytes "content-length") headers with
  | none => none
  | some v =>
    match parseU64 (v.map (fun b => Char.ofNat b.toNat)) with
    | .ok n => some n
    | .error _ => none

/-- `parse_inner` (`src/parser.rs` lines 59–80): command, headers, the
blank line, then the body under the optional `content-length`. -/
def parse_inner (input : List UInt8) : PResult Frame :=
  pbind (parse_command input) (fun rem command =>
    pbind (parse_headers rem) (fun rem headers =>
      pbind (charP 10 rem) (fun rem _ =>
        pbind (parse_body (contentLengthOf headers) rem) (fun rem body =>
          .ok rem ⟨command, headers, body⟩))))

/-- `run_parse` (`src/parser.rs` lines 46–52): a frame, or else the
keep-alive's single LF (`parse_keepalive` = `newline`). -/
def run_parse (input : List UInt8) : PResult FrameOrKeepAlive :=
  palt (pbind (parse_inner input) (fun rem f => .ok rem (.Frame f)))
    (fun _ => pbind (charP 10 input) (fun rem _ => .ok rem .KeepAlive))

/-- `parse_frame` (`src/parser.rs` lines 24–44): on success the buffer is
advanced by `consumed = input.len() - remainder.len()` bytes (the value the
`assert!` bounds); `Incomplete` becomes `Ok(None)` with the buffer
untouched; an error leaves the buffer and surfaces as a `ProtocolError`
through the codec. -/
def parse_frame (input : List UInt8) :
    List UInt8 × Except StompError (Option FrameOrKeepAlive) :=
  match run_parse input with
  | .ok rem v => (input.drop (input.length - rem.length), .ok (some v))
  | .incomplete => (input, .ok none)
  | .err => (input, .error .ProtocolError)

/-! ## The connection multiplexer (`src/connection.rs`)

Channel senders (`futures::channel::mpsc::Sender<Frame>` and the oneshot
receipt signals) are modelled by opaque `Nat` identities; whether a
subscription sender's receiving side has been dropped is an environment
predicate `closed`.  Each loop iteration of `run_c2s` / `run_s2c` is a step
on the shared `ConnectionState`, emitting the iteration's observable
actions in order and, when the loop returns, its result. -/

/-- `src/connection.rs` `ConnectionState`. -/
structure ConnectionState where
  subscriptions : List (List UInt8 × Nat)
  receipts : List (List UInt8 × Nat)
deriving DecidableEq, Repr

/-- `src/connection.rs` `SubscribeReq` (the `messages` sender as an id). -/
structure SubscribeReq where
  destination : String
  id : List UInt8
  ack_mode : AckMode
  messages : Nat
  headers : List (List UInt8 × List UInt8)
deriving DecidableEq, Repr

/-- `src/connection.rs` `PublishReq`. -/
structure PublishReq where
  destination : String
  body : List UInt8
deriving DecidableEq, Repr

/-- `src/connection.rs` `AckReq`. -/
structure AckReq where
  message_id : List UInt8
deriving DecidableEq, Repr

/-- `src/connection.rs` `DisconnectReq` (the oneshot sender as an id). -/
structure DisconnectReq where
  id : List UInt8
  done : Nat
deriving DecidableEq, Repr

/-- `src/connection.rs` `ClientReq`. -/
inductive ClientReq where
  | Disconnect (req : DisconnectReq)
  | Subscribe (req : SubscribeReq)
  | Publish (req : PublishReq)
  | Ack (req : AckReq)
deriving DecidableEq, Repr

/-- `SubscribeReq::to_frame` (`src/connection.rs` lines 377–397): the extra
headers are cloned, then `destination`, `id` and `ack` are inserted. -/
def SubscribeReq.to_frame (req : SubscribeReq) : Frame :=
  let headers := req.headers
  let headers := mapInsert (strBytes "destination") (strBytes req.destination) headers
  let headers := mapInsert (strBytes "id") req.id headers
  let headers := mapInsert (strBytes "ack") (strBytes req.ack_mode.as_str) headers
  ⟨.Subscribe, headers, []⟩

/-- `DisconnectReq::to_frame` (`src/connection.rs` lines 365–375). -/
def DisconnectReq.to_frame (req : DisconnectReq) : Frame :=
  ⟨.Disconnect, mapInsert (strBytes "receipt") req.id [], []⟩

/-- `PublishReq::to_frame` (`src/connection.rs` lines 399–410): the
`content-length` header always carries the body length. -/
def PublishReq.to_frame (req : PublishReq) : Frame :=
  ⟨.Send,
   mapInsert (strBytes "content-length") (strBytes (toString req.body.length))
     (mapInsert (strBytes "destination") (strBytes req.destination) []),
   req.body⟩

/-- `AckReq::to_frame` (`src/connection.rs` lines 412–422). -/
def AckReq.to_frame (req : AckReq) : Frame :=
  ⟨.Ack, mapInsert (strBytes "id") req.message_id [], []⟩

/-- What one iteration of `run_c2s` observes: a keep-alive deadline firing,
a request, or the request stream's end (`Ok(None)`). -/
inductive WriterInput where
  | timedOut
  | closed
  | req (r : ClientReq)
deriving DecidableEq, Repr

/-- The writer flow's observable actions, in program order: routing-table
mutations under the `BiLock`, and transport writes. -/
inductive WriterEvent where
  | insertSubscription (id : List UInt8) (tx : Nat)
  | insertReceipt (id : List UInt8) (done : Nat)
  | writeFrame (f : Frame)
  | writeKeepAlive
deriving DecidableEq, Repr

/-- One iteration of `run_c2s` (`src/connection.rs` lines 121–177): the
state after the iteration, the iteration's actions in program order, and
`some result` when the loop returns.  For `Subscribe` (lines 154–161) and
`Disconnect` (lines 139–153) the table insertion happens strictly before
the frame is sent. -/
def run_c2s_step (st : ConnectionState) (inp : WriterInput) :
    ConnectionState × List WriterEvent × Option (Except StompError Unit) :=
  match inp with
  | .timedOut => (st, [.writeKeepAlive], none)
  | .closed => (st, [], some (.ok ()))
  | .req (.Disconnect req) =>
    ({ st with receipts := mapInsert req.id req.done st.receipts },
     [.insertReceipt req.id req.done, .writeFrame req.to_frame], none)
  | .req (.Subscribe req) =>
    ({ st with subscriptions := mapInsert req.id req.messages st.subscriptions },
     [.insertSubscription req.id req.messages, .writeFrame req.to_frame], none)
  | .req (.Publish req) => (st, [.writeFrame req.to_frame], none)
  | .req (.Ack req) => (st, [.writeFrame req.to_frame], none)

/-- The `run_c2s` loop over a sequence of iteration inputs: concatenated
events, final state, and the loop's result if it returned. -/
def run_c2s_trace (st : ConnectionState) :
    List WriterInput → List WriterEvent × ConnectionState × Option (Except StompError Unit)
  | [] => ([], st, none)
  | inp :: rest =>
    let (st', evs, res) := run_c2s_step st inp
    match res with
    | some r => (evs, st', some r)
    | none =>
      let (evs', st'', r') := run_c2s_trace st' rest
      (evs ++ evs', st'', r')

/-- What one iteration of `run_s2c` observes: the inactivity deadline
firing, the decoded stream ending (`None`), a decode error, or an item. -/
inductive ReaderInput where
  | timedOut
  | streamEnd
  | streamErr (e : StompError)
  | item (x : FrameOrKeepAlive)
deriving DecidableEq, Repr

/-- The reader flow's observable actions. -/
inductive ReaderEvent where
  | forwarded (tx : Nat) (f : Frame)
  | signalReceipt (done : Nat)
  | logUnknownSubscription (id : List UInt8)
  | logUnhandled (c : Command)
  | logKeepAlive
deriving DecidableEq, Repr

/-- One iteration of `run_s2c` (`src/connection.rs` lines 179–267).
`closed tx` tells whether the subscription sender `tx` has a dropped
receiver, in which case `tx.send(frame).await?` fails and the `?`
propagates the send error out of the flow — the loop terminates with an
error and the routing-table entry is left in place.  A `MESSAGE` without a
`subscription` header or a `RECEIPT` without `receipt-id` is a
`ProtocolError`; an unknown subscription id is logged and dropped; the
inactivity deadline yields `PeerFailed`. -/
def run_s2c_step (closed : Nat → Bool) (st : ConnectionState) (inp : ReaderInput) :
    ConnectionState × List ReaderEvent × Option (Except StompError Unit) :=
  match inp with
  | .timedOut => (st, [], some (.error .PeerFailed))
  | .streamEnd => (st, [], some (.ok ()))
  | .streamErr e => (st, [], some (.error e))
  | .item .KeepAlive => (st, [.logKeepAlive], none)
  | .item (.Frame frame) =>
    match frame.command with
    | .Message =>
      (match mapLookup (strBytes "subscription") frame.headers with
       | none => (st, [], some (.error .ProtocolError))
       | some subscription_id =>
         match mapLookup subscription_id st.subscriptions with
         | some tx =>
           if closed tx then (st, [], some (.error .ChannelSendError))
           else (st, [.forwarded tx frame], none)
         | none => (st, [.logUnknownSubscription subscription_id], none))
    | .Receipt =>
      (match mapLookup (strBytes "receipt-id") frame.headers with
       | none => (st, [], some (.error .ProtocolError))
       | some receipt_id =>
         match mapLookup receipt_id st.receipts with
         | some tx =>
           ({ st with receipts := mapRemove receipt_id st.receipts },
            [.signalReceipt tx], none)
         | none =>
           ({ st with receipts := mapRemove receipt_id st.receipts }, [], none))
    | c => (st, [.logUnhandled c], none)

/-! ## Helper lemmas -/

/-- Closed form of `PaceMaker.read_timeout`: the `unwrap_or(ZERO)` on
`duration_since` coincides with `Nat` saturating subtraction, and the
`EPSILON` clamp applies unconditionally. -/
theorem read_timeout_closed_form (pm : PaceMaker) (now : Nat) :
    pm.read_timeout now =
      match pm.server_to_client, pm.client_to_server with
      | none, none => none
      | some s2c, none =>
        some (max ((pm.last_observed_read + s2c - now) * 2) EPSILON)
      | none, some c2s =>
        some (max ((pm.last_observed_write + c2s - now) / 2) EPSILON)
      | some s2c, some c2s =>
        some (max (min ((pm.last_observed_read + s2c - now) * 2)
          ((pm.last_observed_write + c2s - now) / 2)) EPSILON) := by
  obtain ⟨c2s, s2c, lr, lw⟩ := pm
  have hsat : ∀ d n : Nat,
      ((durationSince d n).map (fun x => x * 2)).getD 0 = (d - n) * 2 := by
    intro d n
    unfold durationSince
    split_ifs with h
    · simp
    · have : d - n = 0 := by omega
      simp [this]
  have hsat2 : ∀ d n : Nat,
      ((durationSince d n).map (fun x => x / 2)).getD 0 = (d - n) / 2 := by
    intro d n
    unfold durationSince
    split_ifs with h
    · simp
    · have : d - n = 0 := by omega
      simp [this]
  cases s2c <;> cases c2s <;>
    simp [PaceMaker.read_timeout, listMin, hsat, hsat2]

/-- `mapLookup` ignores entries filtered out for a different key. -/
theorem mapLookup_filter_ne {β : Type} (k k' : List UInt8) (hne : k ≠ k')
    (m : List (List UInt8 × β)) :
    mapLookup k' (m.filter (fun kv => !decide (kv.1 = k))) = mapLookup k' m := by
  induction m with
  | nil => rfl
  | cons kv rest ih =>
    obtain ⟨k0, v0⟩ := kv
    rw [List.filter_cons]
    by_cases h0 : k0 = k
    · subst h0
      simp only [mapLookup]
      have h1 : ¬(k0 = k') := hne
      simp [mapLookup, h1, ih]
    · by_cases h2 : k0 = k'
      · have h3 : ¬(k' = k) := fun h => hne h.symm
        simp [mapLookup, h0, h2, h3]
      · simp [mapLookup, h0, h2, ih]

/-- `mapLookup` after `mapInsert`: the inserted key is found, others are
unaffected. -/
theorem mapLookup_mapInsert {β : Type} (k k' : List UInt8) (v : β)
    (m : List (List UInt8 × β)) :
    mapLookup k' (mapInsert k v m) = if k = k' then some v else mapLookup k' m := by
  unfold mapInsert
  by_cases h : k = k'
  · simp [mapLookup, h]
  · simp [mapLookup, h, mapLookup_filter_ne k k' h m]

/-! ## Claim C1 — heart-beat negotiation -/

/-- C1 counterexample: the intervals that actually run the connection come
from `connect` in `src/connection.rs`, which combines the client proposal
and the parsed server values with `cmp::max` at `Option` type.  With the
client proposal absent and the server's `heart-beat: 42,0`, the negotiated
pair is `(c2s = none, s2c = some 42ms)` — the server-to-client direction is
enabled although the client proposed nothing, contradicting the claim that
an absent proposal disables both directions. -/
theorem claim1_counterexample :
    parse_keepalive (some ("42,0".data)) = .ok (some 42000000, none)
    ∧ connect_negotiate none (some 42000000) none = (none, some 42000000)
    ∧ (connect_negotiate none (some 42000000) none).2 ≠ none := by
  refine ⟨by decide, by decide, by decide⟩

/-- C1 (amended): in the synchronous client, `PaceMaker::new` negotiates as
the claim states except that a present-but-zero client proposal still
counts as present: a direction is enabled iff the proposal is present and
the server's value is nonzero, at the max of the two.  In the asynchronous
`connect` of `src/connection.rs`, each direction is the `Option`-max of the
proposal and the parsed server value (`None` below any `Some`): a direction
is enabled as soon as either side wants it, and a zero server value only
removes the server's contribution without disabling the direction when the
client proposed one. -/
theorem claim1_negotiation_amended (c : Option Nat) (sxv syv now : Nat) :
    ((PaceMaker.new c (some_non_zero sxv) (some_non_zero syv) now).client_to_server
      = match some_non_zero syv, c with
        | some y, some cx => some (max cx y)
        | _, _ => none)
  ∧ ((PaceMaker.new c (some_non_zero sxv) (some_non_zero syv) now).server_to_client
      = match some_non_zero sxv, c with
        | some x, some cy => some (max cy x)
        | _, _ => none)
  ∧ (some_non_zero sxv = if sxv = 0 then none else some sxv)
  ∧ (connect_negotiate none (some_non_zero sxv) (some_non_zero syv)
      = (some_non_zero syv, some_non_zero sxv))
  ∧ (∀ cx, connect_negotiate (some cx) (some_non_zero sxv) (some_non_zero syv)
      = ((match some_non_zero syv with
          | some y => some (max cx y)
          | none => some cx),
         (match some_non_zero sxv with
          | some x => some (max cx x)
          | none => some cx))) := by
  refine ⟨?_, ?_, rfl, ?_, ?_⟩ <;>
  · cases c <;>
      by_cases hx : sxv = 0 <;> by_cases hy : syv = 0 <;>
      simp [PaceMaker.new, some_non_zero, hx, hy, connect_negotiate, optionMax]

/-! ## Claim C2 — the pacemaker's timeout action -/

/-- C2: for observation times not before the recorded read and write
instants, `PaceMaker::handle_read_timeout` returns `SendClientHeart`
exactly when the outbound direction is negotiated and at least `c2s` has
elapsed since the last write; otherwise `PeerFailed` exactly when the
inbound direction is negotiated and at least `2 × s2c` has elapsed since
the last read; otherwise `Retry` — the outbound check is made first. -/
theorem claim2_handle_read_timeout (pm : PaceMaker) (t : Nat)
    (hr : pm.last_observed_read ≤ t) (hw : pm.last_observed_write ≤ t) :
    pm.handle_read_timeout t = .ok
      (if heart_due pm t then .SendClientHeart
       else if peer_dead pm t then .PeerFailed
       else .Retry) := by
  obtain ⟨c2s, s2c, lr, lw⟩ := pm
  simp only [PaceMaker.handle_read_timeout, heart_due, peer_dead, durationSince] at *
  cases c2s <;> cases s2c <;>
    simp_all <;> split_ifs <;> first | rfl | omega

/-- C2 witness: with `c2s = 10`, a last write at 0 and the clock at 10, the
theorem yields `SendClientHeart` (mirroring the repository's
`pacemaker_should_yield_client_heartbeat_after_client_heartbeat_interval`
unit test). -/
theorem claim2_witness :
    (PaceMaker.mk (some 10) none 0 0).handle_read_timeout 10 =
      .ok .SendClientHeart := by
  have h := claim2_handle_read_timeout (PaceMaker.mk (some 10) none 0 0) 10
    (by decide) (by decide)
  simpa [heart_due, peer_dead] using h

/-! ## Claim C3 — behaviour under a backwards-moving clock -/

/-- C3 counterexample: with the outbound direction negotiated
(`c2s = 10`) and both instants recorded at 100, an observation at 50 (a
clock that moved backwards) makes `handle_read_timeout` fail with the
propagated `SystemTimeError` from `duration_since` — not the claimed
saturate-to-zero `Retry`. -/
theorem claim3_counterexample :
    (PaceMaker.mk (some 10) none 100 100).handle_read_timeout 50 =
      .error .SystemTimeError := by
  decide

/-- C3 (amended): only `read_timeout` saturates — it is total and, for any
observation time, returns a timeout value whenever a direction is present.
`handle_read_timeout` instead propagates the `duration_since` error via
`?`: a backwards clock is an error whenever the corresponding direction is
negotiated, and only in the all-disabled case does it return `Retry`. -/
theorem claim3_amended (pm : PaceMaker) (t : Nat) :
    (∀ i, pm.client_to_server = some i → t < pm.last_observed_write →
      pm.handle_read_timeout t = .error .SystemTimeError)
  ∧ (∀ i, pm.client_to_server = none → pm.server_to_client = some i →
      t < pm.last_observed_read →
      pm.handle_read_timeout t = .error .SystemTimeError)
  ∧ (pm.client_to_server = none → pm.server_to_client = none →
      pm.handle_read_timeout t = .ok .Retry)
  ∧ (pm.server_to_client ≠ none ∨ pm.client_to_server ≠ none →
      ∃ d, pm.read_timeout t = some d) := by
  obtain ⟨c2s, s2c, lr, lw⟩ := pm
  refine ⟨?_, ?_, ?_, ?_⟩
  · intro i hi hlt
    subst hi
    simp [PaceMaker.handle_read_timeout, durationSince, Nat.not_le.mpr hlt]
  · intro i hc hi hlt
    subst hc
    subst hi
    simp [PaceMaker.handle_read_timeout, durationSince, Nat.not_le.mpr hlt]
  · intro hc hs
    subst hc
    subst hs
    simp [PaceMaker.handle_read_timeout]
  · intro hp
    rw [read_timeout_closed_form]
    rcases s2c with _ | a <;> rcases c2s with _ | b <;> simp_all

/-- C3 witness: the amended theorem at the counterexample's state — the
outbound direction `some 10` with the clock at 50, behind the recorded
write instant 100 — gives the error, while `read_timeout` still returns a
value. -/
theorem claim3_witness :
    (PaceMaker.mk (some 10) none 100 100).handle_read_timeout 50 =
        .error .SystemTimeError
    ∧ ∃ d, (PaceMaker.mk (some 10) none 100 100).read_timeout 50 = some d := by
  have h := claim3_amended (PaceMaker.mk (some 10) none 100 100) 50
  exact ⟨h.1 10 rfl (by decide), h.2.2.2 (Or.inr (by decide))⟩

/-! ## Claim C7 — the read-timeout computation -/

/-- C7 counterexample: with only the inbound direction present
(`s2c = 1 ms`), the last read at 0 and the clock at 999 900 ns — 100 ns
before the deadline, so no deadline is past — `read_timeout` returns
`EPSILON = 1 µs`, not the claimed un-clamped minimum
`(deadline - now) * 2 = 200 ns`: the ε clamp applies unconditionally, not
only once a deadline is already past. -/
theorem claim7_counterexample :
    (PaceMaker.mk none (some 1000000) 0 0).read_timeout 999900 = some EPSILON
    ∧ 999900 < 0 + 1000000
    ∧ (0 + 1000000 - 999900) * 2 = 200
    ∧ (PaceMaker.mk none (some 1000000) 0 0).read_timeout 999900 ≠
        some ((0 + 1000000 - 999900) * 2) := by
  refine ⟨by decide, by decide, by decide, by decide⟩

/-- C7 (amended): when at least one direction is present, `read_timeout`
equals the minimum over the present directions of twice the (saturating)
time remaining until `last_read + s2c` and half the time remaining until
`last_write + c2s`, clamped below by `EPSILON` unconditionally — in
particular when a deadline is already past; when both directions are
absent it returns `none`. -/
theorem claim7_read_timeout_amended (pm : PaceMaker) (now : Nat) :
    (pm.server_to_client = none → pm.client_to_server = none →
      pm.read_timeout now = none)
  ∧ (∀ s2c, pm.server_to_client = some s2c → pm.client_to_server = none →
      pm.read_timeout now =
        some (max ((pm.last_observed_read + s2c - now) * 2) EPSILON))
  ∧ (∀ c2s, pm.server_to_client = none → pm.client_to_server = some c2s →
      pm.read_timeout now =
        some (max ((pm.last_observed_write + c2s - now) / 2) EPSILON))
  ∧ (∀ s2c c2s, pm.server_to_client = some s2c →
      pm.client_to_server = some c2s →
      pm.read_timeout now =
        some (max (min ((pm.last_observed_read + s2c - now) * 2)
          ((pm.last_observed_write + c2s - now) / 2)) EPSILON)) := by
  have h := read_timeout_closed_form pm now
  refine ⟨?_, ?_, ?_, ?_⟩
  · intro hs hc
    rw [h, hs, hc]
  · intro s2c hs hc
    rw [h, hs, hc]
  · intro c2s hs hc
    rw [h, hs, hc]
  · intro s2c c2s hs hc
    rw [h, hs, hc]

/-- C7 witness: the repository's
`pacemaker_read_timeout_should_be_min_of_client_and_twice_server_heartbeat_3`
scenario — `c2s = 2 ms`, `s2c = 10 ms`, both instants at 0, clock at 0 —
where the amended theorem gives `min(20 ms, 1 ms) = 1 ms`. -/
theorem claim7_witness :
    (PaceMaker.mk (some 2000000) (some 10000000) 0 0).read_timeout 0 =
      some 1000000 := by
  have h := (claim7_read_timeout_amended
    (PaceMaker.mk (some 2000000) (some 10000000) 0 0) 0).2.2.2
    10000000 2000000 rfl rfl
  simpa [EPSILON] using h

/-! ## Claim C10 — a missing heart-beat header -/

/-- C10: `parse_keepalive` maps a missing `heart-beat` header to
`Ok((None, None))` — not a protocol error — and the pacemaker built from
those values (any client proposal) has both directions disabled; the
asynchronous negotiation with no client proposal likewise yields two
disabled directions. -/
theorem claim10_missing_heartbeat_header (c : Option Nat) (now : Nat) :
    parse_keepalive none = .ok (none, none)
  ∧ (PaceMaker.new c none none now).client_to_server = none
  ∧ (PaceMaker.new c none none now).server_to_client = none
  ∧ connect_negotiate none none none = (none, none) := by
  refine ⟨rfl, ?_, ?_, rfl⟩ <;> cases c <;> simp [PaceMaker.new]

/-! ## Claim C5 — header escape handling -/

/-- C5 counterexample: the synchronous client's `decode_header` does not
report an unknown escape as a parse error — `\x` inside `a\xb` is silently
dropped (both characters consumed, nothing emitted), yielding `ab`. -/
theorem claim5_counterexample :
    decode_header ['a', '\\', 'x', 'b'] = ['a', 'b'] := by
  decide

/-- C5 (amended): in the wire parser (`parse_header_char`) the escapes
`\n, \r, \c, \\` decode to LF, CR, `:` and `\`, and any other `\X` is a
parse error; in the synchronous client's `decode_header` the same four
escapes decode, but an unknown escape is logged and dropped — both
characters are consumed and nothing is emitted — rather than failing. -/
theorem claim5_escape_amended :
    (∀ rest : List UInt8, parse_header_char (92 :: 110 :: rest) = .ok rest 10)
  ∧ (∀ rest : List UInt8, parse_header_char (92 :: 114 :: rest) = .ok rest 13)
  ∧ (∀ rest : List UInt8, parse_header_char (92 :: 99 :: rest) = .ok rest 58)
  ∧ (∀ rest : List UInt8, parse_header_char (92 :: 92 :: rest) = .ok rest 92)
  ∧ (∀ (b : UInt8) (rest : List UInt8), b ≠ 99 → b ≠ 92 → b ≠ 114 → b ≠ 110 →
      parse_header_char (92 :: b :: rest) = .err)
  ∧ (∀ rest : List Char,
      decode_header ('\\' :: 'r' :: rest) = '\r' :: decode_header rest)
  ∧ (∀ rest : List Char,
      decode_header ('\\' :: 'n' :: rest) = '\n' :: decode_header rest)
  ∧ (∀ rest : List Char,
      decode_header ('\\' :: 'c' :: rest) = ':' :: decode_header rest)
  ∧ (∀ rest : List Char,
      decode_header ('\\' :: '\\' :: rest) = '\\' :: decode_header rest)
  ∧ (∀ (e : Char) (rest : List Char), e ≠ 'r' → e ≠ 'n' → e ≠ 'c' → e ≠ '\\' →
      decode_header ('\\' :: e :: rest) = decode_header rest) := by
  refine ⟨fun rest => rfl, fun rest => rfl, fun rest => rfl, fun rest => rfl,
    ?_, fun rest => rfl, fun rest => rfl, fun rest => rfl, fun rest => rfl, ?_⟩
  · intro b rest h1 h2 h3 h4
    simp [parse_header_char, h1, h2, h3, h4]
  · intro e rest h1 h2 h3 h4
    simp [decode_header, h1, h2, h3, h4]

/-- C5 witness: the amended theorem at the escape `\x` — an error in the
wire parser, dropped by `decode_header`. -/
theorem claim5_witness :
    parse_header_char [92, 120] = .err
    ∧ decode_header ['\\', 'x', 'b'] = decode_header ['b'] := by
  have h := claim5_escape_amended
  exact ⟨h.2.2.2.2.1 120 [] (by decide) (by decide) (by decide) (by decide),
    h.2.2.2.2.2.2.2.2.2 'x' ['b'] (by decide) (by decide) (by decide) (by decide)⟩

/-! ## Claim C8 — a keep-alive before the CONNECTED frame -/

/-- C8 counterexample: the synchronous client's `read_frame` loops while
the line it read trims to nothing, so a keep-alive LF ahead of the
`CONNECTED` frame is skipped and the handshake proceeds to parse
`CONNECTED` — it does not fail with a protocol error. -/
theorem claim8_counterexample :
    read_command_line [['\n'], "CONNECTED\n".data] = some ("CONNECTED".data)
    ∧ command_from_str ("CONNECTED".data) = .ok .Connected := by
  refine ⟨by decide, by decide⟩

/-- C8 (amended): the asynchronous `connect` judges the first decoded item
and fails with `ProtocolError` when it is a keep-alive (or the stream has
closed); the synchronous client's `read_frame` instead discards any lines
that trim to the empty string — keep-alive LFs included — and judges the
next full frame. -/
theorem claim8_handshake_amended :
    connect_judge (some .KeepAlive) = .error .ProtocolError
  ∧ connect_judge none = .error .ProtocolError
  ∧ (∀ rest : List (List Char),
      read_command_line (['\n'] :: rest) = read_command_line rest) := by
  refine ⟨rfl, rfl, fun rest => ?_⟩
  have h : trimWs ['\n'] = [] := by decide
  simp [read_command_line, h]

/-! ## Claim C9 — a MESSAGE for a closed subscription channel -/

/-- C9 counterexample: with the id `one` bound in the subscriptions table
to a sender whose receiver has been dropped, dispatching a `MESSAGE` for
`one` makes the reader flow terminate with the propagated channel-send
error; the table entry is not removed and the flow does not continue. -/
theorem claim9_counterexample :
    run_s2c_step (fun _ => true) ⟨[(strBytes "one", 7)], []⟩
        (.item (.Frame ⟨.Message,
          mapInsert (strBytes "subscription") (strBytes "one") [], []⟩))
      = (⟨[(strBytes "one", 7)], []⟩, [], some (.error .ChannelSendError))
    ∧ mapLookup (strBytes "one")
        (ConnectionState.mk [(strBytes "one", 7)] []).subscriptions = some 7 := by
  refine ⟨by decide, by decide⟩

/-- C9 (amended): when the reader flow dispatches a `MESSAGE` whose
subscription id is bound in the table, it forwards the frame and continues
if the receiving channel is open, but if the channel is closed the
`tx.send(frame).await?` error terminates the flow and the entry is left in
the table; only an id that is not bound at all is logged and dropped
without terminating. -/
theorem claim9_reader_amended (closed : Nat → Bool) (st : ConnectionState)
    (frame : Frame) (sid : List UInt8) (tx : Nat)
    (hcmd : frame.command = .Message)
    (hsid : mapLookup (strBytes "subscription") frame.headers = some sid) :
    (mapLookup sid st.subscriptions = some tx → closed tx = true →
      run_s2c_step closed st (.item (.Frame frame)) =
        (st, [], some (.error .ChannelSendError)))
  ∧ (mapLookup sid st.subscriptions = some tx → closed tx = false →
      run_s2c_step closed st (.item (.Frame frame)) =
        (st, [.forwarded tx frame], none))
  ∧ (mapLookup sid st.subscriptions = none →
      run_s2c_step closed st (.item (.Frame frame)) =
        (st, [.logUnknownSubscription sid], none)) := by
  obtain ⟨cmd, headers, body⟩ := frame
  cases hcmd
  refine ⟨?_, ?_, ?_⟩
  · intro h1 h2
    simp [run_s2c_step, hsid, h1, h2]
  · intro h1 h2
    simp [run_s2c_step, hsid, h1, h2]
  · intro h1
    simp [run_s2c_step, hsid, h1]

/-- C9 witness: the amended theorem at the counterexample's concrete state
— the closed-channel case terminates the flow with the send error. -/
theorem claim9_witness :
    run_s2c_step (fun _ => true) ⟨[(strBytes "one", 7)], []⟩
        (.item (.Frame ⟨.Message,
          mapInsert (strBytes "subscription") (strBytes "one") [], []⟩))
      = (⟨[(strBytes "one", 7)], []⟩, [], some (.error .ChannelSendError)) := by
  exact (claim9_reader_amended (fun _ => true) ⟨[(strBytes "one", 7)], []⟩
    ⟨.Message, mapInsert (strBytes "subscription") (strBytes "one") [], []⟩
    (strBytes "one") 7 rfl (by decide)).1 (by decide) rfl

/-! ## Claim C6 — the decoder's consumption contract

Each streaming parser only ever returns a remainder that is a suffix of its
input, so `consumed = input.len() - remainder.len()` never underflows, the
`assert!` in `parse_frame` holds, and `advance(consumed)` leaves exactly
the parsed item's bytes consumed. -/

/-- The remainder of a successful pure continuation is its own input. -/
theorem pure_suffix {β : Type} {x : β} {rem1 rem2 : List UInt8} {v2 : β}
    (h : (PResult.ok rem1 x : PResult β) = .ok rem2 v2) : rem2 <:+ rem1 := by
  injection h with ha hb
  subst ha
  exact List.suffix_rfl

/-- `pbind` preserves the suffix property of both stages. -/
theorem pbind_suffix {α β : Type} {r : PResult α} {f : List UInt8 → α → PResult β}
    {input rem : List UInt8} {v : β}
    (hr : ∀ {rem1 : List UInt8} {v1 : α}, r = .ok rem1 v1 → rem1 <:+ input)
    (hf : ∀ {rem1 : List UInt8} {v1 : α} {rem2 : List UInt8} {v2 : β},
      f rem1 v1 = .ok rem2 v2 → rem2 <:+ rem1)
    (h : pbind r f = .ok rem v) : rem <:+ input := by
  cases r with
  | ok rem1 v1 =>
    have h' : f rem1 v1 = .ok rem v := h
    exact (hf h').trans (hr rfl)
  | err => exact absurd h (by simp [pbind])
  | incomplete => exact absurd h (by simp [pbind])

/-- `palt` preserves the suffix property of both branches. -/
theorem palt_suffix {α : Type} {r : PResult α} {g : Unit → PResult α}
    {input rem : List UInt8} {v : α}
    (hr : ∀ {rem1 : List UInt8} {v1 : α}, r = .ok rem1 v1 → rem1 <:+ input)
    (hg : ∀ {rem1 : List UInt8} {v1 : α}, g () = .ok rem1 v1 → rem1 <:+ input)
    (h : palt r g = .ok rem v) : rem <:+ input := by
  cases r with
  | ok rem1 v1 =>
    have h' : (PResult.ok rem1 v1 : PResult α) = .ok rem v := h
    injection h' with ha hb
    subst ha
    exact hr rfl
  | err =>
    have h' : g () = .ok rem v := h
    exact hg h'
  | incomplete => exact absurd h (by simp [palt])

theorem tagP_suffix {t input rem : List UInt8} {v : Unit}
    (h : tagP t input = .ok rem v) : rem <:+ input := by
  unfold tagP at h
  split_ifs at h
  · injection h with h1 h2
    subst h1
    exact List.drop_suffix _ _

theorem charP_suffix {c : UInt8} {input rem : List UInt8} {v : Unit}
    (h : charP c input = .ok rem v) : rem <:+ input := by
  cases input with
  | nil => exact absurd h (by simp [charP])
  | cons b rest =>
    have h' : (if b = c then PResult.ok rest () else .err) = .ok rem v := h
    split_ifs at h'
    injection h' with h1 h2
    subst h1
    exact List.suffix_cons _ _

theorem parse_header_char_suffix {input rem : List UInt8} {v : UInt8}
    (h : parse_header_char input = .ok rem v) : rem <:+ input := by
  cases input with
  | nil => exact absurd h (by simp [parse_header_char])
  | cons b rest =>
    simp only [parse_header_char] at h
    split_ifs at h with h1 h2 h3
    · cases rest with
      | nil => exact absurd h (by simp)
      | cons e rest' =>
        have h' : (if e = 99 then PResult.ok rest' 58
            else if e = 92 then .ok rest' 92
            else if e = 114 then .ok rest' 13
            else if e = 110 then .ok rest' 10
            else .err) = .ok rem v := h
        split_ifs at h' <;>
        · injection h' with ha hb
          subst ha
          exact (List.suffix_cons _ _).trans (List.suffix_cons _ _)
    · injection h with ha hb
      subst ha
      exact List.suffix_cons _ _

theorem headerValueChar_suffix {input rem : List UInt8} {v : UInt8}
    (h : headerValueChar input = .ok rem v) : rem <:+ input := by
  unfold headerValueChar at h
  refine palt_suffix ?_ ?_ h
  · intro rem1 v1 h1
    exact parse_header_char_suffix h1
  · intro rem1 v1 h1
    exact pbind_suffix (fun {a b} h2 => tagP_suffix h2)
      (fun {a b c d} h2 => pure_suffix h2) h1

theorem many0F_suffix {α : Type} {p : List UInt8 → PResult α}
    (hp : ∀ {input rem : List UInt8} {v : α},
      p input = .ok rem v → rem <:+ input) :
    ∀ {fuel : Nat} {input rem : List UInt8} {vs : List α},
      many0F p fuel input = .ok rem vs → rem <:+ input := by
  intro fuel
  induction fuel with
  | zero => intro input rem vs h; exact absurd h (by simp [many0F])
  | succ n ih =>
    intro input rem vs h
    simp only [many0F] at h
    cases h1 : p input with
    | err =>
      rw [h1] at h
      have h' : (PResult.ok input ([] : List α)) = .ok rem vs := h
      injection h' with ha hb
      subst ha
      exact List.suffix_rfl
    | incomplete =>
      rw [h1] at h
      exact absurd h (by simp)
    | ok rem1 v1 =>
      rw [h1] at h
      have h' : pbind (many0F p n rem1)
          (fun rem' vs2 => .ok rem' (v1 :: vs2)) = .ok rem vs := h
      exact pbind_suffix (fun {a b} h2 => (ih h2).trans (hp h1))
        (fun {a b c d} h2 => pure_suffix h2) h'

theorem many1F_suffix {α : Type} {p : List UInt8 → PResult α}
    (hp : ∀ {input rem : List UInt8} {v : α},
      p input = .ok rem v → rem <:+ input)
    {fuel : Nat} {input rem : List UInt8} {vs : List α}
    (h : many1F p fuel input = .ok rem vs) : rem <:+ input := by
  unfold many1F at h
  refine pbind_suffix (fun {a b} h1 => hp h1) ?_ h
  intro rem1 v1 rem2 v2 h1
  exact pbind_suffix (fun {a b} h2 => many0F_suffix hp h2)
    (fun {a b c d} h2 => pure_suffix h2) h1

theorem parse_header_suffix {input rem : List UInt8}
    {v : List UInt8 × List UInt8}
    (h : parse_header input = .ok rem v) : rem <:+ input := by
  unfold parse_header at h
  refine pbind_suffix
    (fun {a b} h1 => many1F_suffix parse_header_char_suffix h1) ?_ h
  intro rem1 v1 rem2 v2 h1
  refine pbind_suffix (fun {a b} h2 => charP_suffix h2) ?_ h1
  intro rem3 v3 rem4 v4 h2
  refine pbind_suffix
    (fun {a b} h3 => many0F_suffix headerValueChar_suffix h3) ?_ h2
  intro rem5 v5 rem6 v6 h3
  exact pbind_suffix (fun {a b} h4 => charP_suffix h4)
    (fun {a b c d} h4 => pure_suffix h4) h3

theorem parse_headers_suffix {input rem : List UInt8}
    {v : List (List UInt8 × List UInt8)}
    (h : parse_headers input = .ok rem v) : rem <:+ input := by
  unfold parse_headers at h
  exact pbind_suffix
    (fun {a b} h1 => many0F_suffix (fun {x y z} h2 => parse_header_suffix h2) h1)
    (fun {a b c d} h1 => pure_suffix h1) h

theorem takeP_suffix {len : Nat} {input rem body : List UInt8}
    (h : takeP len input = .ok rem body) : rem <:+ input := by
  unfold takeP at h
  split_ifs at h
  · injection h with ha hb
    subst ha
    exact List.drop_suffix _ _

theorem takeTillNul_suffix :
    ∀ {input rem body : List UInt8},
      takeTillNul input = .ok rem body → rem <:+ input := by
  intro input
  induction input with
  | nil => intro rem body h; exact absurd h (by simp [takeTillNul])
  | cons b rest ih =>
    intro rem body h
    simp only [takeTillNul] at h
    split_ifs at h with hb
    · injection h with ha hb'
      subst ha
      exact List.suffix_rfl
    · exact pbind_suffix
        (fun {a b'} h2 => (ih h2).trans (List.suffix_cons _ _))
        (fun {a b' c d} h2 => pure_suffix h2) h

theorem parse_body_suffix {cl : Option Nat} {input rem body : List UInt8}
    (h : parse_body cl input = .ok rem body) : rem <:+ input := by
  unfold parse_body at h
  refine pbind_suffix ?_ ?_ h
  · intro rem1 v1 h1
    cases cl with
    | some len => exact takeP_suffix h1
    | none => exact takeTillNul_suffix h1
  · intro rem1 v1 rem2 v2 h1
    exact pbind_suffix (fun {a b} h2 => tagP_suffix h2)
      (fun {a b c d} h2 => pure_suffix h2) h1

theorem altTagCmd_suffix {s : String} {c : Command}
    {next : List UInt8 → PResult Command}
    (hn : ∀ {input rem : List UInt8} {v : Command},
      next input = .ok rem v → rem <:+ input)
    {input rem : List UInt8} {v : Command}
    (h : altTagCmd s c next input = .ok rem v) : rem <:+ input := by
  unfold altTagCmd at h
  refine palt_suffix ?_ ?_ h
  · intro rem1 v1 h1
    exact pbind_suffix (fun {a b} h2 => tagP_suffix h2)
      (fun {a b c d} h2 => pure_suffix h2) h1
  · intro rem1 v1 h1
    exact hn h1

theorem parse_command_suffix {input rem : List UInt8} {v : Command}
    (h : parse_command input = .ok rem v) : rem <:+ input := by
  unfold parse_command at h
  have h0 : ∀ {input rem : List UInt8} {v : Command},
      (fun _ : List UInt8 => (.err : PResult Command)) input = .ok rem v →
      rem <:+ input := by
    intro _ _ _ hh
    exact absurd hh (by simp)
  exact altTagCmd_suffix (altTagCmd_suffix (altTagCmd_suffix (altTagCmd_suffix
    (altTagCmd_suffix (altTagCmd_suffix (altTagCmd_suffix (altTagCmd_suffix
    (altTagCmd_suffix (altTagCmd_suffix h0))))))))) h

theorem parse_inner_suffix {input rem : List UInt8} {f : Frame}
    (h : parse_inner input = .ok rem f) : rem <:+ input := by
  unfold parse_inner at h
  refine pbind_suffix (fun {a b} h1 => parse_command_suffix h1) ?_ h
  intro rem1 v1 rem2 v2 h1
  refine pbind_suffix (fun {a b} h2 => parse_headers_suffix h2) ?_ h1
  intro rem3 v3 rem4 v4 h2
  refine pbind_suffix (fun {a b} h3 => charP_suffix h3) ?_ h2
  intro rem5 v5 rem6 v6 h3
  exact pbind_suffix (fun {a b} h4 => parse_body_suffix h4)
    (fun {a b c d} h4 => pure_suffix h4) h3

theorem run_parse_suffix {input rem : List UInt8} {v : FrameOrKeepAlive}
    (h : run_parse input = .ok rem v) : rem <:+ input := by
  unfold run_parse at h
  refine palt_suffix ?_ ?_ h
  · intro rem1 v1 h1
    exact pbind_suffix (fun {a b} h2 => parse_inner_suffix h2)
      (fun {a b c d} h2 => pure_suffix h2) h1
  · intro rem1 v1 h1
    exact pbind_suffix (fun {a b} h2 => charP_suffix h2)
      (fun {a b c d} h2 => pure_suffix h2) h1

/-- C6: on every byte buffer, the decoder either parses one item and
consumes exactly that item's bytes — the remainder is a suffix of the
input (so the `assert!`ed `consumed ≤ len` holds) and `advance(consumed)`
leaves precisely that remainder — or reports "need more bytes" advancing
the buffer by zero, or reports a parse error leaving the buffer intact; it
is total on arbitrary bytes (never panics), and an unchanged buffer makes
repeated calls safe as more bytes arrive. -/
theorem claim6_decoder_contract (input : List UInt8) :
    (∃ rem v, run_parse input = .ok rem v ∧ rem <:+ input ∧
      rem.length ≤ input.length ∧
      parse_frame input = (rem, .ok (some v)))
  ∨ (run_parse input = .incomplete ∧ parse_frame input = (input, .ok none))
  ∨ (run_parse input = .err ∧
      parse_frame input = (input, .error .ProtocolError)) := by
  cases hr : run_parse input with
  | ok rem v =>
    left
    have hs := run_parse_suffix hr
    obtain ⟨t, ht⟩ := hs
    refine ⟨rem, v, rfl, ⟨t, ht⟩, ?_, ?_⟩
    · subst ht
      simp
    · unfold parse_frame
      rw [hr]
      subst ht
      show (List.drop ((t ++ rem).length - rem.length) (t ++ rem),
        (Except.ok (some v) : Except StompError (Option FrameOrKeepAlive)))
        = (rem, .ok (some v))
      have hlen : (t ++ rem).length - rem.length = t.length := by
        simp
      rw [hlen, List.drop_left]
  | incomplete =>
    right; left
    refine ⟨rfl, ?_⟩
    unfold parse_frame
    rw [hr]
  | err =>
    right; right
    refine ⟨rfl, ?_⟩
    unfold parse_frame
    rw [hr]

/-! ## Claim C4 — Subscribe inserts the routing entry before the write -/

/-- The `SUBSCRIBE` frame built by `SubscribeReq::to_frame` carries the
request's subscription id in its `id` header. -/
theorem subscribe_frame_id (req : SubscribeReq) :
    mapLookup (strBytes "id") req.to_frame.headers = some req.id := by
  unfold SubscribeReq.to_frame
  rw [mapLookup_mapInsert, if_neg (by decide), mapLookup_mapInsert, if_pos rfl]

/-- Unfolding `run_c2s_trace` over a keep-alive timeout. -/
theorem trace_cons_timedOut (st : ConnectionState) (rest : List WriterInput) :
    run_c2s_trace st (.timedOut :: rest) =
      (WriterEvent.writeKeepAlive :: (run_c2s_trace st rest).1,
       (run_c2s_trace st rest).2) := rfl

/-- Unfolding `run_c2s_trace` over the request stream's end. -/
theorem trace_cons_closed (st : ConnectionState) (rest : List WriterInput) :
    run_c2s_trace st (.closed :: rest) = ([], st, some (.ok ())) := rfl

/-- Unfolding `run_c2s_trace` over a `Subscribe` request: the table
insertion strictly precedes the frame write. -/
theorem trace_cons_subscribe (st : ConnectionState) (req : SubscribeReq)
    (rest : List WriterInput) :
    run_c2s_trace st (.req (.Subscribe req) :: rest) =
      (WriterEvent.insertSubscription req.id req.messages ::
        WriterEvent.writeFrame req.to_frame ::
        (run_c2s_trace
          { st with subscriptions :=
              mapInsert req.id req.messages st.subscriptions } rest).1,
       (run_c2s_trace
          { st with subscriptions :=
              mapInsert req.id req.messages st.subscriptions } rest).2) := rfl

/-- Unfolding `run_c2s_trace` over a `Disconnect` request. -/
theorem trace_cons_disconnect (st : ConnectionState) (req : DisconnectReq)
    (rest : List WriterInput) :
    run_c2s_trace st (.req (.Disconnect req) :: rest) =
      (WriterEvent.insertReceipt req.id req.done ::
        WriterEvent.writeFrame req.to_frame ::
        (run_c2s_trace
          { st with receipts := mapInsert req.id req.done st.receipts } rest).1,
       (run_c2s_trace
          { st with receipts := mapInsert req.id req.done st.receipts } rest).2) := rfl

/-- Unfolding `run_c2s_trace` over a `Publish` request. -/
theorem trace_cons_publish (st : ConnectionState) (req : PublishReq)
    (rest : List WriterInput) :
    run_c2s_trace st (.req (.Publish req) :: rest) =
      (WriterEvent.writeFrame req.to_frame :: (run_c2s_trace st rest).1,
       (run_c2s_trace st rest).2) := rfl

/-- Unfolding `run_c2s_trace` over an `Ack` request. -/
theorem trace_cons_ack (st : ConnectionState) (req : AckReq)
    (rest : List WriterInput) :
    run_c2s_trace st (.req (.Ack req) :: rest) =
      (WriterEvent.writeFrame req.to_frame :: (run_c2s_trace st rest).1,
       (run_c2s_trace st rest).2) := rfl

/-- In every writer-flow trace, a written `SUBSCRIBE` frame is preceded by
the insertion of its subscription id into the routing table. -/
theorem writer_trace_ordered :
    ∀ (inputs : List WriterInput) (st : ConnectionState) (i : Nat) (f : Frame),
      (run_c2s_trace st inputs).1.get? i = some (.writeFrame f) →
      f.command = .Subscribe →
      ∃ j id tx, j < i ∧
        (run_c2s_trace st inputs).1.get? j =
          some (.insertSubscription id tx) ∧
        mapLookup (strBytes "id") f.headers = some id := by
  intro inputs
  induction inputs with
  | nil =>
    intro st i f hf hc
    simp [run_c2s_trace] at hf
  | cons inp rest ih =>
    intro st i f hf hc
    cases inp with
    | timedOut =>
      rw [trace_cons_timedOut] at hf ⊢
      cases i with
      | zero => simp at hf
      | succ n =>
        simp only [List.get?_cons_succ] at hf
        obtain ⟨j, id, tx, hj, hg, hl⟩ := ih st n f hf hc
        exact ⟨j + 1, id, tx, by omega, by simpa using hg, hl⟩
    | closed =>
      rw [trace_cons_closed] at hf
      simp at hf
    | req r =>
      cases r with
      | Subscribe req =>
        rw [trace_cons_subscribe] at hf ⊢
        cases i with
        | zero => simp at hf
        | succ n =>
          cases n with
          | zero =>
            simp only [List.get?_cons_succ, List.get?_cons_zero,
              Option.some.injEq, WriterEvent.writeFrame.injEq] at hf
            subst hf
            exact ⟨0, req.id, req.messages, by omega, rfl,
              subscribe_frame_id req⟩
          | succ m =>
            simp only [List.get?_cons_succ] at hf
            obtain ⟨j, id, tx, hj, hg, hl⟩ := ih _ m f hf hc
            exact ⟨j + 2, id, tx, by omega, by simpa using hg, hl⟩
      | Disconnect req =>
        rw [trace_cons_disconnect] at hf ⊢
        cases i with
        | zero => simp at hf
        | succ n =>
          cases n with
          | zero =>
            simp only [List.get?_cons_succ, List.get?_cons_zero,
              Option.some.injEq, WriterEvent.writeFrame.injEq] at hf
            subst hf
            simp [DisconnectReq.to_frame] at hc
          | succ m =>
            simp only [List.get?_cons_succ] at hf
            obtain ⟨j, id, tx, hj, hg, hl⟩ := ih _ m f hf hc
            exact ⟨j + 2, id, tx, by omega, by simpa using hg, hl⟩
      | Publish req =>
        rw [trace_cons_publish] at hf ⊢
        cases i with
        | zero =>
          simp only [List.get?_cons_zero, Option.some.injEq,
            WriterEvent.writeFrame.injEq] at hf
          subst hf
          simp [PublishReq.to_frame] at hc
        | succ n =>
          simp only [List.get?_cons_succ] at hf
          obtain ⟨j, id, tx, hj, hg, hl⟩ := ih st n f hf hc
          exact ⟨j + 1, id, tx, by omega, by simpa using hg, hl⟩
      | Ack req =>
        rw [trace_cons_ack] at hf ⊢
        cases i with
        | zero =>
          simp only [List.get?_cons_zero, Option.some.injEq,
            WriterEvent.writeFrame.injEq] at hf
          subst hf
          simp [AckReq.to_frame] at hc
        | succ n =>
          simp only [List.get?_cons_succ] at hf
          obtain ⟨j, id, tx, hj, hg, hl⟩ := ih st n f hf hc
          exact ⟨j + 1, id, tx, by omega, by simpa using hg, hl⟩

/-- C4: along every writer-flow execution, whenever a `SUBSCRIBE` frame is
written to the transport, the insertion of its subscription id into the
shared routing table occurs at a strictly earlier position in the event
trace (and the inserted id is exactly the frame's `id` header), so no
`MESSAGE` for that id can be lost to routing-table timing once the frame
is on the wire. -/
theorem claim4_subscribe_before_write (st : ConnectionState)
    (inputs : List WriterInput) (i : Nat) (f : Frame)
    (hf : (run_c2s_trace st inputs).1.get? i = some (.writeFrame f))
    (hc : f.command = .Subscribe) :
    ∃ j id tx, j < i ∧
      (run_c2s_trace st inputs).1.get? j =
        some (.insertSubscription id tx) ∧
      mapLookup (strBytes "id") f.headers = some id :=
  writer_trace_ordered inputs st i f hf hc

/-- C4 witness: a fresh connection processing one `Subscribe` request for
id `one` — the frame write sits at index 1 of the trace and the theorem
produces the insertion strictly before it. -/
theorem claim4_witness :
    ∃ j id tx, j < 1 ∧
      (run_c2s_trace ⟨[], []⟩
        [.req (.Subscribe ⟨"/queue/q", strBytes "one", .Auto, 7, []⟩)]).1.get? j
        = some (.insertSubscription id tx) ∧
      mapLookup (strBytes "id")
        (SubscribeReq.to_frame ⟨"/queue/q", strBytes "one", .Auto, 7, []⟩).headers
        = some id :=
  claim4_subscribe_before_write ⟨[], []⟩
    [.req (.Subscribe ⟨"/queue/q", strBytes "one", .Auto, 7, []⟩)] 1
    (SubscribeReq.to_frame ⟨"/queue/q", strBytes "one", .Auto, 7, []⟩) rfl rfl

end Stomping
